import Mathlib

/-!
Shallow embedding of the ManualMind retrieval and caching engine
(src/services/document_processor.py and src/services/query_service.py).

Texts are modelled as `List Char`, Python ints as `Int`/`Nat`, and
similarity scores (Python floats) as `ℚ`.  The float threshold
`start + max_chunk_size * 0.8` is modelled exactly as the rational
inequality `i * 5 > start * 5 + max_chunk_size * 4`; the Python binary
floating point can differ from this by at most one ulp, which none of
the properties below depend on.  The external collaborators (file
system, PDF extractor, embedding model, OpenAI completion, md5) are
opaque deterministic functions collected in an `Env` record; the Redis
instance is modelled as an explicit association-list state where a
fresh `setex` conses an entry and `get` takes the first match
(Redis SET-overwrite semantics).
-/

namespace ManualMind

/-- Python `str.isspace`-style whitespace characters (the ones `str.split`
and `str.strip` treat as separators; ASCII subset, which covers all texts
in this development). -/
def isPySpace (c : Char) : Bool :=
  c = ' ' || c = '\t' || c = '\n' || c = '\r' || c = '\x0b' || c = '\x0c'

/-- Python `str.strip()`: drop whitespace from both ends. -/
def pyStrip (t : List Char) : List Char :=
  ((t.dropWhile isPySpace).reverse.dropWhile isPySpace).reverse

/-- Python slice/`rfind` index adjustment: a negative index counts from the
end of the string (clamped at 0), a non-negative one is clamped at the
length. -/
def pyAdjIndex (n : Nat) (i : Int) : Nat :=
  if i < 0 then ((n : Int) + i).toNat else min i.toNat n

/-- Python slice `t[a:b]`. -/
def pySlice (t : List Char) (a b : Int) : List Char :=
  (t.take (pyAdjIndex t.length b)).drop (pyAdjIndex t.length a)

/-- Largest index `i < n` with `p i = true`, or `-1` when there is none
(the core of Python `str.rfind`). -/
def rfindP (p : Nat → Bool) : Nat → Int
  | 0 => -1
  | n + 1 => if p n then (n : Int) else rfindP p n

/-- Python `t.rfind(c, a, b)` for a single-character needle: the largest
absolute index of `c` inside the adjusted range `[a, b)`, or `-1`. -/
def pyRfindChar (t : List Char) (c : Char) (a b : Int) : Int :=
  let lo := pyAdjIndex t.length a
  let hi := pyAdjIndex t.length b
  rfindP (fun i => decide (lo ≤ i) && (t.get? i == some c)) hi

/-- Python `t.rfind("\n\n", a, b)`: the largest absolute index `i` with
`t[i] = t[i+1] = '\n'` and the two-character match contained in the
adjusted range `[a, b)`, or `-1`. -/
def pyRfind2NL (t : List Char) (a b : Int) : Int :=
  let lo := pyAdjIndex t.length a
  let hi := pyAdjIndex t.length b
  rfindP (fun i =>
    decide (lo ≤ i) && decide (i + 2 ≤ hi) &&
    (t.get? i == some '\n') && (t.get? (i + 1) == some '\n')) hi

/-- The two chunking parameters of `DocumentProcessor` (env defaults
`MAX_CHUNK_SIZE = 1000`, `CHUNK_OVERLAP = 100`). -/
structure ChunkCfg where
  maxChunkSize : Nat
  chunkOverlap : Nat
  deriving DecidableEq

/-- One window-end computation of `DocumentProcessor.chunk_text`
(document_processor.py lines 58–69): cut at `start + max_chunk_size`,
but snap to just after the last `'.'`, else just after the last
`"\n\n"`, when that boundary lies strictly beyond 80% of the window. -/
def computeEnd (cfg : ChunkCfg) (t : List Char) (start : Int) : Int :=
  let e := start + (cfg.maxChunkSize : Int)
  if e < (t.length : Int) then
    let lastPeriod := pyRfindChar t '.' start e
    let lastNewline := pyRfind2NL t start e
    if lastPeriod * 5 > start * 5 + (cfg.maxChunkSize : Int) * 4 then
      lastPeriod + 1
    else if lastNewline * 5 > start * 5 + (cfg.maxChunkSize : Int) * 4 then
      lastNewline + 2
    else e
  else e

/-- The `while start < len(text)` loop of `chunk_text`
(document_processor.py lines 57–77), with an explicit fuel bound:
`none` means the Python loop has not finished within `fuel` iterations
(so `∀ fuel, … = none` states that the loop never terminates). -/
def chunkLoop (cfg : ChunkCfg) (t : List Char) : Nat → Int → Option (List (List Char))
  | 0, _ => none
  | fuel + 1, start =>
    if start < (t.length : Int) then
      let e := computeEnd cfg t start
      let chunk := pyStrip (pySlice t start e)
      match chunkLoop cfg t fuel (e - (cfg.chunkOverlap : Int)) with
      | none => none
      | some rest => some (if chunk = [] then rest else chunk :: rest)
    else some []

/-- `DocumentProcessor.chunk_text` (document_processor.py lines 49–77). -/
def chunk_text (cfg : ChunkCfg) (fuel : Nat) (t : List Char) : Option (List (List Char)) :=
  if t.length ≤ cfg.maxChunkSize then some [t]
  else chunkLoop cfg t fuel 0

/-- The record `process_document` assembles and caches
(document_processor.py lines 110–117).  Python floats in `embeddings`
are modelled as `ℚ`. -/
structure DocData where
  filePath : String
  fileName : String
  fileHash : String
  chunks : List (List Char)
  embeddings : List (List ℚ)
  totalChunks : Nat
  deriving DecidableEq

/-- One scored chunk as built by `find_similar_chunks`
(document_processor.py lines 167–173). -/
structure SimEntry where
  fileName : String
  chunkIndex : Nat
  chunkText : List Char
  similarity : ℚ
  filePath : String
  deriving DecidableEq

/-- One entry of the `sources` list of a query response
(query_service.py lines 131–136). -/
structure QSource where
  fileName : String
  similarityScore : ℚ
  preview : List Char
  deriving DecidableEq

/-- The structured response of `QueryService.process_query`
(query_service.py lines 111–118 and 147–153). -/
structure QResult where
  query : List Char
  response : List Char
  sources : List QSource
  confidence : String
  totalSources : Nat
  deriving DecidableEq

/-- The external collaborators, injected as opaque deterministic
functions: the file system, the PDF text extractor, md5, the sentence
transformer, and the OpenAI chat completion (which may raise). -/
structure Env where
  fileBytes : String → List Nat
  extractText : String → List Char
  md5hex : List Nat → String
  embed : List Char → List ℚ
  generateAns : List Char → List SimEntry → Except (List Char) (List Char)

/-- The Redis state plus invocation counters for the two external model
calls.  `docStore` and `queryCache` are association lists where a fresh
`setex` conses an entry (Redis SET overwrite = first match wins on
lookup); query-cache entries carry their TTL in seconds. -/
structure SysState where
  docStore : List (String × DocData)
  processedFiles : Option (List String)
  queryCache : List (List Char × (QResult × Nat))
  embedCalls : Nat
  genCalls : Nat

/-- `Path(file_path).name`: the last `/`-separated component. -/
def pathName (p : String) : String :=
  (p.splitOn "/").getLastD p

/-- `DocumentProcessor.process_document` (document_processor.py lines
88–122): content-hash lookup, text extraction, chunking, one batch
embedding call, and a 24h-TTL store.  The result is `none` when the
chunking loop does not finish within `fuel` iterations; `Except.error`
models the `{"error": ...}` dictionary. -/
def process_document (env : Env) (cfg : ChunkCfg) (fuel : Nat) (st : SysState)
    (path : String) : Option (Except String DocData × SysState) :=
  let fileHash := env.md5hex (env.fileBytes path)
  let cacheKey := "doc:" ++ fileHash
  match List.lookup cacheKey st.docStore with
  | some d => some (Except.ok d, st)
  | none =>
    let text := env.extractText path
    if pyStrip text = [] then
      some (Except.error ("No text extracted from " ++ path), st)
    else
      match chunk_text cfg fuel text with
      | none => none
      | some chunks =>
        let embeddings := chunks.map env.embed
        let d : DocData :=
          ⟨path, pathName path, fileHash, chunks, embeddings, chunks.length⟩
        some (Except.ok d,
          { st with
            docStore := (cacheKey, d) :: st.docStore
            embedCalls := st.embedCalls + 1 })

/-- Dot product of a query vector and a chunk vector
(`np.dot(query_embedding, embeddings.T)`). -/
def dotQ (a b : List ℚ) : ℚ := (List.zipWith (fun x y => x * y) a b).sum

/-- Scores every chunk of one document record against the query vector,
in chunk-index order (document_processor.py lines 160–173). -/
def enumChunks (d : DocData) (qv : List ℚ) : List SimEntry :=
  ((d.chunks.zip d.embeddings).enum).map
    (fun p => ⟨d.fileName, p.1, p.2.1, dotQ qv p.2.2, d.filePath⟩)

/-- Stable descending insertion by similarity: a new element passes over
strictly larger scores and stops before equal or smaller ones, so
elements with equal scores keep their original relative order. -/
def insertDesc (x : SimEntry) : List SimEntry → List SimEntry
  | [] => [x]
  | y :: ys =>
    if x.similarity < y.similarity then y :: insertDesc x ys
    else x :: y :: ys

/-- Stable sort descending by similarity, modelling the stable
`list.sort(key=..., reverse=True)` of document_processor.py line 177. -/
def sortDesc (l : List SimEntry) : List SimEntry := l.foldr insertDesc []

/-- The corpus enumeration of `find_similar_chunks` (document_processor.py
lines 155–174): for each processed file name, the first record in the
scan whose `file_name` matches, its chunks in index order. -/
def allSimilarities (files : List String) (docs : List (String × DocData))
    (qv : List ℚ) : List SimEntry :=
  (files.map (fun name =>
    match docs.find? (fun p => p.2.fileName == name) with
    | some p => enumChunks p.2 qv
    | none => [])).flatten

/-- Ranking core of `find_similar_chunks` (document_processor.py lines
176–178): stable sort descending by similarity, truncate to `top_k`. -/
def searchTopK (files : List String) (docs : List (String × DocData))
    (qv : List ℚ) (k : Nat) : List SimEntry :=
  (sortDesc (allSimilarities files docs qv)).take k

/-- `DocumentProcessor.find_similar_chunks` (document_processor.py lines
142–178) over the modelled Redis state. -/
def find_similar_chunks (env : Env) (st : SysState) (query : List Char)
    (k : Nat) : List SimEntry :=
  let qv := env.embed query
  match st.processedFiles with
  | none => []
  | some files => searchTopK files st.docStore qv k

/-- Python `str.split()` (no separator): split on whitespace runs,
discarding empty pieces.  `acc` holds the current word reversed. -/
def splitWSAux : List Char → List Char → List (List Char)
  | [], acc => if acc = [] then [] else [acc.reverse]
  | c :: cs, acc =>
    if isPySpace c then
      if acc = [] then splitWSAux cs []
      else acc.reverse :: splitWSAux cs []
    else splitWSAux cs (c :: acc)

/-- Python `t.split()`. -/
def pySplitWS (t : List Char) : List (List Char) := splitWSAux t []

/-- `QueryService._normalize_query` (query_service.py lines 33–37):
`' '.join(query.lower().strip().split())`. -/
def normalize_query (q : List Char) : List Char :=
  List.intercalate [' '] (pySplitWS (pyStrip (q.map Char.toLower)))

/-- The string `QueryService._get_query_cache_key` feeds to md5
(query_service.py line 43). -/
def queryCacheInput (q : List Char) (k : Nat) : List Char :=
  normalize_query q ++ ":top_k_".toList ++ (toString k).toList

/-- `QueryService._get_query_cache_key` (query_service.py lines 39–46).
md5 is a deterministic digest: equal inputs give equal hex digests, and
the digest is collision-free on the inputs a deployment sees, so the
key is modelled as the prefixed digest input itself. -/
def get_query_cache_key (q : List Char) (k : Nat) : List Char :=
  "query_cache:".toList ++ queryCacheInput q k

/-- The apology text `QueryService.generate_response` returns when the
OpenAI call raises (query_service.py line 92). -/
def apologyMsg (e : List Char) : List Char :=
  "I apologize, but I encountered an error while processing your question: ".toList
    ++ e ++ ". Please try again or rephrase your question.".toList

/-- `QueryService.generate_response` (query_service.py lines 48–92):
strip the completion on success, or return the apology message built
from the exception on failure. -/
def generate_response (env : Env) (q : List Char) (chunks : List SimEntry) :
    List Char :=
  match env.generateAns q chunks with
  | Except.ok t => pyStrip t
  | Except.error e => apologyMsg e

/-- The no-results response text (query_service.py line 114);
the apostrophe is written via its code point. -/
def noInfoResponse : List Char :=
  "I don".toList ++ [Char.ofNat 39] ++
    "t have any relevant information in my knowledge base to answer your question. Please make sure the documents are processed and available.".toList

/-- Python `round(x, 3)` modelled over ℚ (rounding at exact half
thousandths may differ from the float round-half-to-even; no property below
depends on ties). -/
def round3 (x : ℚ) : ℚ := (round (x * 1000) : ℤ) / 1000

/-- One `sources` entry (query_service.py lines 131–136): rounded score
and a 200-character preview, ellipsis-marked when truncated. -/
def mkSource (c : SimEntry) : QSource :=
  ⟨c.fileName, round3 c.similarity,
    if c.chunkText.length > 200 then c.chunkText.take 200 ++ "...".toList
    else c.chunkText⟩

/-- `max(chunk["similarity"] for chunk in similar_chunks)`
(query_service.py line 139). -/
def maxSim : List SimEntry → ℚ
  | [] => 0
  | c :: cs => cs.foldl (fun a x => max a x.similarity) c.similarity

/-- The confidence ladder of query_service.py lines 140–145. -/
def confidenceOf (s : ℚ) : String :=
  if 8 / 10 < s then "high"
  else if 6 / 10 < s then "medium"
  else "low"

/-- The query-level cache TTL configuration (query_service.py lines
30–31): `QUERY_CACHE_TTL`, default 86400 seconds. -/
structure QueryCfg where
  queryCacheTtl : Nat
  deriving DecidableEq

/-- The default configuration (no `QUERY_CACHE_TTL` env override). -/
def defaultQueryCfg : QueryCfg := ⟨86400⟩

/-- `QueryService.process_query` (query_service.py lines 94–161):
cache lookup, similarity search, the no-results short-TTL branch, and
the generate-and-store long-TTL branch.  `genCalls` counts OpenAI
completion attempts. -/
def process_query (env : Env) (qcfg : QueryCfg) (st : SysState)
    (q : List Char) (k : Nat) : QResult × SysState :=
  let cacheKey := get_query_cache_key q k
  match List.lookup cacheKey st.queryCache with
  | some rt => (rt.1, st)
  | none =>
    let similarChunks := find_similar_chunks env st q k
    if similarChunks = [] then
      let r : QResult := ⟨q, noInfoResponse, [], "low", 0⟩
      (r, { st with queryCache := (cacheKey, (r, 3600)) :: st.queryCache })
    else
      let response := generate_response env q similarChunks
      let sources := similarChunks.map mkSource
      let confidence := confidenceOf (maxSim similarChunks)
      let r : QResult :=
        ⟨q, response, sources, confidence, similarChunks.length⟩
      (r, { st with
              queryCache := (cacheKey, (r, qcfg.queryCacheTtl)) :: st.queryCache
              genCalls := st.genCalls + 1 })

/-- The env-default chunking configuration (`MAX_CHUNK_SIZE = 1000`,
`CHUNK_OVERLAP = 100`). -/
def cfg1000 : ChunkCfg := ⟨1000, 100⟩

/-- A small configuration used for concrete boundary-snap runs. -/
def cfg25 : ChunkCfg := ⟨25, 6⟩

/-- A text whose first window (25 characters) contains both a blank-line
boundary (index 21) and a sentence terminator (index 23) in its last
20% (indices above 20). -/
def ctextBoundary : List Char :=
  ("aaaaaaaaaaaaaaaaaaaaa" ++ "\n\n." ++ "bcd").toList

/-- A concrete environment for witness instantiations. -/
def testEnv : Env where
  fileBytes := fun _ => [1, 2, 3]
  extractText := fun _ => "hello world.".toList
  md5hex := fun _ => "h1"
  embed := fun _ => [1, 0]
  generateAns := fun _ _ => Except.ok "answer".toList

/-- `testEnv` with a generation backend that always raises. -/
def failEnv : Env :=
  { testEnv with generateAns := fun _ _ => Except.error "boom".toList }

/-- `testEnv` with an extractor that yields only whitespace. -/
def blankEnv : Env :=
  { testEnv with extractText := fun _ => "   ".toList }

/-- The empty Redis state. -/
def emptyState : SysState := ⟨[], none, [], 0, 0⟩

/-- A one-chunk document record for witness corpora. -/
def testDoc : DocData :=
  ⟨"media/a.pdf", "a.pdf", "h1", ["hello.".toList], [[1, 0]], 1⟩

/-- A state holding `testDoc` as the whole processed corpus. -/
def loadedState : SysState :=
  ⟨[("doc:h1", testDoc)], some ["a.pdf"], [], 0, 0⟩

/-! ## Theorems -/

theorem rfindP_lt (p : Nat → Bool) : ∀ n, rfindP p n < (n : Int) := by
  intro n
  induction n with
  | zero => simp [rfindP]
  | succ m ih =>
    unfold rfindP
    split
    · exact_mod_cast Nat.lt_succ_self m
    · calc rfindP p m < (m : Int) := ih
        _ < ((m + 1 : Nat) : Int) := by exact_mod_cast Nat.lt_succ_self m

theorem rfindP_spec (p : Nat → Bool) :
    ∀ n, rfindP p n = -1 ∨ (0 ≤ rfindP p n ∧ p (rfindP p n).toNat = true) := by
  intro n
  induction n with
  | zero => left; rfl
  | succ m ih =>
    unfold rfindP
    split
    · right
      refine ⟨by positivity, ?_⟩
      simpa using ‹p m = true›
    · exact ih

theorem rfindP_neg (p : Nat → Bool) :
    ∀ n, (∀ i, i < n → p i = false) → rfindP p n = -1 := by
  intro n
  induction n with
  | zero => intro _; rfl
  | succ m ih =>
    intro h
    unfold rfindP
    rw [h m (Nat.lt_succ_self m)]
    exact ih (fun i hi => h i (Nat.lt_succ_of_lt hi))

theorem pyAdjIndex_le (n : Nat) (i : Int) : pyAdjIndex n i ≤ n := by
  unfold pyAdjIndex
  split
  · omega
  · exact Nat.min_le_right _ _

theorem computeEnd_le (cfg : ChunkCfg) (t : List Char) (start : Int)
    (h0 : 0 < t.length) :
    computeEnd cfg t start ≤ max (start + (cfg.maxChunkSize : Int)) (t.length : Int) := by
  simp only [computeEnd]
  split
  · split
    · -- period snap: the found index is < the adjusted end ≤ length
      have h1 := rfindP_lt
        (fun i => decide (pyAdjIndex t.length start ≤ i) && (t.get? i == some '.'))
        (pyAdjIndex t.length (start + (cfg.maxChunkSize : Int)))
      have h2 := pyAdjIndex_le t.length (start + (cfg.maxChunkSize : Int))
      simp only [pyRfindChar]
      refine le_trans ?_ (le_max_right _ _)
      have h2' : ((pyAdjIndex t.length (start + (cfg.maxChunkSize : Int))) : Int)
          ≤ (t.length : Int) := by exact_mod_cast h2
      omega
    · split
      · -- blank-line snap
        rename_i hnl
        simp only [pyRfind2NL] at hnl ⊢
        set lo := pyAdjIndex t.length start with hlo
        set hi := pyAdjIndex t.length (start + (cfg.maxChunkSize : Int)) with hhi
        set p : Nat → Bool := fun i =>
          decide (lo ≤ i) && decide (i + 2 ≤ hi) &&
          (t.get? i == some '\n') && (t.get? (i + 1) == some '\n') with hp
        rcases rfindP_spec p hi with hcase | ⟨hge, htrue⟩
        · -- nothing found: the branch still sets end = -1 + 2 = 1 ≤ length
          rw [hcase]
          refine le_trans ?_ (le_max_right _ _)
          omega
        · -- found at i with i + 2 ≤ hi ≤ length
          have hhile := pyAdjIndex_le t.length (start + (cfg.maxChunkSize : Int))
          have : (rfindP p hi).toNat + 2 ≤ hi := by
            have := htrue
            simp only [hp, Bool.and_eq_true, decide_eq_true_eq] at this
            exact this.1.1.2
          refine le_trans ?_ (le_max_right _ _)
          omega
      · exact le_max_left _ _
  · exact le_max_left _ _

theorem computeEnd_zero_cfg (cfg : ChunkCfg) (t : List Char) (start : Int)
    (hmz : cfg.maxChunkSize = 0) (hs : start < (t.length : Int)) :
    computeEnd cfg t start = start ∨ computeEnd cfg t start = 0 := by
  unfold computeEnd
  rw [hmz]
  simp only [Nat.cast_zero, add_zero, mul_zero]
  rw [if_pos hs]
  have hlp : pyRfindChar t '.' start start = -1 := by
    unfold pyRfindChar
    apply rfindP_neg
    intro i hi
    simp only [Bool.and_eq_false_iff]
    left
    simpa using Nat.not_le_of_lt hi
  have hnl : pyRfind2NL t start start = -1 := by
    unfold pyRfind2NL
    apply rfindP_neg
    intro i hi
    simp only [Bool.and_eq_false_iff]
    left; left; left
    simpa using Nat.not_le_of_lt hi
  rw [hlp, hnl]
  split
  · right; norm_num
  · left; rfl

theorem computeEnd_next_lt (cfg : ChunkCfg) (t : List Char) (start : Int)
    (hover : cfg.maxChunkSize ≤ cfg.chunkOverlap)
    (hmax : cfg.maxChunkSize < t.length)
    (hs : start < (t.length : Int)) :
    computeEnd cfg t start - (cfg.chunkOverlap : Int) < (t.length : Int) := by
  have h0 : 0 < t.length := Nat.lt_of_le_of_lt (Nat.zero_le _) hmax
  rcases Nat.eq_zero_or_pos cfg.chunkOverlap with hov | hov
  · -- overlap 0 forces max_chunk_size 0: the window end stays at start or 0
    have hmz : cfg.maxChunkSize = 0 := by omega
    rcases computeEnd_zero_cfg cfg t start hmz hs with h | h <;> rw [h] <;> omega
  · have hle := computeEnd_le cfg t start h0
    rcases le_max_iff.mp hle with h | h
    · have : (cfg.maxChunkSize : Int) ≤ (cfg.chunkOverlap : Int) := by
        exact_mod_cast hover
      omega
    · have : (1 : Int) ≤ (cfg.chunkOverlap : Int) := by exact_mod_cast hov
      omega

theorem chunkLoop_none (cfg : ChunkCfg) (t : List Char)
    (hover : cfg.maxChunkSize ≤ cfg.chunkOverlap)
    (hmax : cfg.maxChunkSize < t.length) :
    ∀ fuel (start : Int), start < (t.length : Int) →
      chunkLoop cfg t fuel start = none := by
  intro fuel
  induction fuel with
  | zero => intro start _; rfl
  | succ m ih =>
    intro start hs
    have hnext := computeEnd_next_lt cfg t start hover hmax hs
    simp only [chunkLoop, if_pos hs, ih _ hnext]

/-- C1 (code_bug): `chunk_text` has no guard against `overlap ≥
max_chunk_size`; for every such configuration and every text longer
than `max_chunk_size`, the window never advances past the end of the
text, so the `while` loop fails to finish within any iteration bound —
the code loops forever instead of rejecting the configuration. -/
theorem chunk_text_no_guard_diverges (cfg : ChunkCfg) (fuel : Nat) (t : List Char)
    (hover : cfg.maxChunkSize ≤ cfg.chunkOverlap)
    (hmax : cfg.maxChunkSize < t.length) :
    chunk_text cfg fuel t = none := by
  unfold chunk_text
  rw [if_neg (by omega)]
  exact chunkLoop_none cfg t hover hmax fuel 0 (by exact_mod_cast Nat.lt_of_le_of_lt (Nat.zero_le _) hmax)

theorem chunk_text_no_guard_diverges_witness :
    (1 : Nat) ≤ 1 ∧ 1 < ("ab".toList).length ∧
      chunk_text ⟨1, 1⟩ 100 "ab".toList = none :=
  ⟨le_refl 1, by decide,
    chunk_text_no_guard_diverges ⟨1, 1⟩ 100 "ab".toList (le_refl 1) (by decide)⟩

/-- C2 counterexample: in `ctextBoundary` both a sentence terminator
(index 23) and a blank-line boundary (index 21) lie in the last 20% of
the first 25-character window, yet the window end snaps to just after
the period (24), not just after the blank line (23): the sentence
terminator wins, contradicting the claimed blank-line preference. -/
theorem chunk_boundary_counterexample :
    pyRfindChar ctextBoundary '.' 0 25 * 5 > 0 * 5 + (25 : Int) * 4 ∧
    pyRfind2NL ctextBoundary 0 25 * 5 > 0 * 5 + (25 : Int) * 4 ∧
    computeEnd cfg25 ctextBoundary 0 = pyRfindChar ctextBoundary '.' 0 25 + 1 ∧
    computeEnd cfg25 ctextBoundary 0 ≠ pyRfind2NL ctextBoundary 0 25 + 2 ∧
    chunk_text cfg25 10 ctextBoundary =
      some [("aaaaaaaaaaaaaaaaaaaaa" ++ "\n\n.").toList,
            ("aaa" ++ "\n\n." ++ "bcd").toList] := by
  decide

/-- C2 (amended): when a sentence terminator lies within the last 20%
of the window, `chunk_text` snaps the window end to just after it —
the sentence terminator is preferred over a blank-line boundary when
both are in range, because the period branch is checked first. -/
theorem chunk_boundary_prefers_period (cfg : ChunkCfg) (t : List Char) (start : Int)
    (hlen : start + (cfg.maxChunkSize : Int) < (t.length : Int))
    (hp : pyRfindChar t '.' start (start + (cfg.maxChunkSize : Int)) * 5 >
      start * 5 + (cfg.maxChunkSize : Int) * 4) :
    computeEnd cfg t start =
      pyRfindChar t '.' start (start + (cfg.maxChunkSize : Int)) + 1 := by
  simp only [computeEnd]
  rw [if_pos hlen, if_pos hp]

theorem chunk_boundary_prefers_period_witness :
    (0 : Int) + (cfg25.maxChunkSize : Int) < (ctextBoundary.length : Int) ∧
    pyRfindChar ctextBoundary '.' 0 (0 + (cfg25.maxChunkSize : Int)) * 5 >
      0 * 5 + (cfg25.maxChunkSize : Int) * 4 ∧
    computeEnd cfg25 ctextBoundary 0 =
      pyRfindChar ctextBoundary '.' 0 (0 + (cfg25.maxChunkSize : Int)) + 1 :=
  ⟨by decide, by decide,
    chunk_boundary_prefers_period cfg25 ctextBoundary 0 (by decide) (by decide)⟩

theorem chunkLoop_chunks_ne_nil (cfg : ChunkCfg) (t : List Char) :
    ∀ (fuel : Nat) (start : Int) (cs : List (List Char)),
      chunkLoop cfg t fuel start = some cs → ∀ c ∈ cs, c ≠ [] := by
  intro fuel
  induction fuel with
  | zero => intro start cs h; simp [chunkLoop] at h
  | succ m ih =>
    intro start cs h
    simp only [chunkLoop] at h
    split at h
    · cases hrec : chunkLoop cfg t m (computeEnd cfg t start - (cfg.chunkOverlap : Int)) with
      | none => rw [hrec] at h; simp at h
      | some rest =>
        rw [hrec] at h
        simp only [Option.some.injEq] at h
        subst h
        intro c hc
        split at hc
        · exact ih _ _ hrec c hc
        · rcases List.mem_cons.mp hc with heq | hmem
          · subst heq; assumption
          · exact ih _ _ hrec c hmem
    · simp only [Option.some.injEq] at h
      subst h
      intro c hc
      simp at hc

/-- C3 counterexample: for `"  hi  "` (length 6 ≤ max_chunk_size 1000)
`chunk_text` returns the raw input, not the trimmed `"hi"`, and for the
empty text it emits the single chunk `""`, which is empty. -/
theorem chunk_text_short_counterexample :
    chunk_text cfg1000 10 "  hi  ".toList = some ["  hi  ".toList] ∧
    "  hi  ".toList ≠ pyStrip "  hi  ".toList ∧
    chunk_text cfg1000 10 ([] : List Char) = some [[]] := by
  decide

/-- C3 (amended): for every text no longer than `max_chunk_size`,
`chunk_text` returns exactly one chunk equal to the raw input text —
not trimmed, and possibly empty or whitespace-only; every chunk the
sliding-window path (texts longer than `max_chunk_size`) emits is
non-empty. -/
theorem chunk_text_short_input :
    (∀ (cfg : ChunkCfg) (fuel : Nat) (t : List Char),
      t.length ≤ cfg.maxChunkSize → chunk_text cfg fuel t = some [t]) ∧
    (∀ (cfg : ChunkCfg) (fuel : Nat) (t : List Char) (cs : List (List Char)),
      cfg.maxChunkSize < t.length → chunk_text cfg fuel t = some cs →
      ∀ c ∈ cs, c ≠ []) := by
  constructor
  · intro cfg fuel t h
    simp [chunk_text, h]
  · intro cfg fuel t cs hlen h
    rw [chunk_text, if_neg (by omega)] at h
    exact chunkLoop_chunks_ne_nil cfg t fuel 0 cs h

theorem chunk_text_short_input_witness :
    ("hello".toList).length ≤ cfg1000.maxChunkSize ∧
    chunk_text cfg1000 10 "hello".toList = some ["hello".toList] :=
  ⟨by decide, chunk_text_short_input.1 cfg1000 10 "hello".toList (by decide)⟩

theorem mem_insertDesc {x a : SimEntry} :
    ∀ {l : List SimEntry}, a ∈ insertDesc x l ↔ a = x ∨ a ∈ l := by
  intro l
  induction l with
  | nil => simp [insertDesc]
  | cons y ys ih =>
    simp only [insertDesc]
    split
    · simp only [List.mem_cons, ih]
      tauto
    · simp only [List.mem_cons]

theorem pairwise_insertDesc (x : SimEntry) :
    ∀ (l : List SimEntry),
      List.Pairwise (fun a b => b.similarity ≤ a.similarity) l →
      List.Pairwise (fun a b => b.similarity ≤ a.similarity) (insertDesc x l) := by
  intro l
  induction l with
  | nil => intro _; simp [insertDesc]
  | cons y ys ih =>
    intro h
    rcases List.pairwise_cons.mp h with ⟨hy, hys⟩
    simp only [insertDesc]
    split
    · rename_i hlt
      refine List.pairwise_cons.mpr ⟨?_, ih hys⟩
      intro b hb
      rcases mem_insertDesc.mp hb with rfl | hmem
      · exact le_of_lt hlt
      · exact hy b hmem
    · rename_i hnlt
      refine List.pairwise_cons.mpr ⟨?_, h⟩
      intro b hb
      rcases List.mem_cons.mp hb with rfl | hmem
      · exact le_of_not_lt hnlt
      · exact le_trans (hy b hmem) (le_of_not_lt hnlt)

theorem sortDesc_sorted (l : List SimEntry) :
    List.Pairwise (fun a b => b.similarity ≤ a.similarity) (sortDesc l) := by
  induction l with
  | nil => simp [sortDesc]
  | cons x xs ih => exact pairwise_insertDesc x (sortDesc xs) ih

theorem filter_insertDesc (x : SimEntry) (s : ℚ) :
    ∀ (l : List SimEntry),
      (insertDesc x l).filter (fun c => decide (c.similarity = s)) =
        if x.similarity = s then
          x :: l.filter (fun c => decide (c.similarity = s))
        else l.filter (fun c => decide (c.similarity = s)) := by
  intro l
  induction l with
  | nil => by_cases hx : x.similarity = s <;> simp [insertDesc, hx]
  | cons y ys ih =>
    simp only [insertDesc]
    split
    · rename_i hlt
      rw [List.filter_cons, List.filter_cons, ih]
      by_cases hx : x.similarity = s
      · have hy : ¬ y.similarity = s := by
          intro hy'
          rw [hx] at hlt
          rw [hy'] at hlt
          exact lt_irrefl s hlt
        simp [hx, hy]
      · simp [hx]
    · rw [List.filter_cons]
      by_cases hx : x.similarity = s <;> simp [hx]

theorem sortDesc_filter_stable (s : ℚ) :
    ∀ (l : List SimEntry),
      (sortDesc l).filter (fun c => decide (c.similarity = s)) =
        l.filter (fun c => decide (c.similarity = s)) := by
  intro l
  induction l with
  | nil => rfl
  | cons x xs ih =>
    show (insertDesc x (sortDesc xs)).filter _ = _
    rw [filter_insertDesc, List.filter_cons]
    by_cases hx : x.similarity = s <;> simp [hx, ih]

/-- C5: the similarity search over a corpus (file enumeration order,
then chunk index) returns the first `k` entries of the stable
descending sort of all scored chunks: length at most `k`, scores
descending, equal scores kept in corpus enumeration order (the filter
at each score value is unchanged by the sort), and repeated calls on
the same state are identical. -/
theorem find_similar_chunks_ranking (env : Env) (files : List String)
    (docs : List (String × DocData)) (qc : List (List Char × (QResult × Nat)))
    (ec gc : Nat) (q : List Char) (k : Nat) :
    find_similar_chunks env ⟨docs, some files, qc, ec, gc⟩ q k =
      (sortDesc (allSimilarities files docs (env.embed q))).take k ∧
    (find_similar_chunks env ⟨docs, some files, qc, ec, gc⟩ q k).length ≤ k ∧
    List.Pairwise (fun a b => b.similarity ≤ a.similarity)
      (find_similar_chunks env ⟨docs, some files, qc, ec, gc⟩ q k) ∧
    (∀ s : ℚ,
      (sortDesc (allSimilarities files docs (env.embed q))).filter
          (fun c => decide (c.similarity = s)) =
        (allSimilarities files docs (env.embed q)).filter
          (fun c => decide (c.similarity = s))) ∧
    find_similar_chunks env ⟨docs, some files, qc, ec, gc⟩ q k =
      find_similar_chunks env ⟨docs, some files, qc, ec, gc⟩ q k := by
  refine ⟨rfl, ?_, ?_, fun s => sortDesc_filter_stable s _, rfl⟩
  · show ((sortDesc (allSimilarities files docs (env.embed q))).take k).length ≤ k
    rw [List.length_take]
    exact Nat.min_le_left _ _
  · show List.Pairwise _ ((sortDesc (allSimilarities files docs (env.embed q))).take k)
    exact List.Pairwise.sublist (List.take_sublist _ _) (sortDesc_sorted _)

theorem splitWSAux_allspace_nil :
    ∀ (w : List Char), (∀ c ∈ w, isPySpace c = true) → splitWSAux w [] = [] := by
  intro w
  induction w with
  | nil => intro _; rfl
  | cons c cs ih =>
    intro h
    have hc := h c (List.mem_cons_self c cs)
    simp only [splitWSAux, hc, if_pos rfl, if_true]
    exact ih (fun d hd => h d (List.mem_cons_of_mem c hd))

theorem splitWSAux_allspace (w : List Char) (acc : List Char)
    (h : ∀ c ∈ w, isPySpace c = true) :
    splitWSAux w acc = if acc = [] then [] else [acc.reverse] := by
  cases w with
  | nil => rfl
  | cons c cs =>
    have hc := h c (List.mem_cons_self c cs)
    have hcs : splitWSAux cs [] = [] :=
      splitWSAux_allspace_nil cs (fun d hd => h d (List.mem_cons_of_mem c hd))
    simp only [splitWSAux, hc, if_true, hcs]

theorem splitWSAux_append_space (w : List Char)
    (hw : ∀ c ∈ w, isPySpace c = true) :
    ∀ (s acc : List Char), splitWSAux (s ++ w) acc = splitWSAux s acc := by
  intro s
  induction s with
  | nil =>
    intro acc
    rw [List.nil_append, splitWSAux_allspace w acc hw]
    rfl
  | cons c cs ih =>
    intro acc
    rw [List.cons_append]
    by_cases hc : isPySpace c = true
    · simp only [splitWSAux, hc, if_true, List.append_eq, ih]
    · have hc' : isPySpace c = false := by simpa using hc
      simp only [splitWSAux, hc', List.append_eq, ih, Bool.false_eq_true, if_false]

theorem splitWSAux_dropWhile :
    ∀ (s : List Char), splitWSAux (s.dropWhile isPySpace) [] = splitWSAux s [] := by
  intro s
  induction s with
  | nil => rfl
  | cons c cs ih =>
    by_cases hc : isPySpace c = true
    · rw [List.dropWhile_cons_of_pos hc, ih]
      simp [splitWSAux, hc]
    · rw [List.dropWhile_cons_of_neg (by simpa using hc)]

theorem pySplitWS_pyStrip (t : List Char) :
    pySplitWS (pyStrip t) = pySplitWS t := by
  unfold pySplitWS pyStrip
  set u := t.dropWhile isPySpace with hu
  have hsplit : List.takeWhile isPySpace u.reverse ++ List.dropWhile isPySpace u.reverse
      = u.reverse := List.takeWhile_append_dropWhile isPySpace u.reverse
  have hdecomp : (List.dropWhile isPySpace u.reverse).reverse ++
      (List.takeWhile isPySpace u.reverse).reverse = u := by
    rw [← List.reverse_append, hsplit, List.reverse_reverse]
  have hws : ∀ c ∈ (List.takeWhile isPySpace u.reverse).reverse, isPySpace c = true := by
    intro c hc
    exact List.mem_takeWhile_imp (List.mem_reverse.mp hc)
  calc splitWSAux (List.dropWhile isPySpace u.reverse).reverse [] =
      splitWSAux ((List.dropWhile isPySpace u.reverse).reverse ++
        (List.takeWhile isPySpace u.reverse).reverse) [] :=
        (splitWSAux_append_space _ hws _ []).symm
    _ = splitWSAux u [] := by rw [hdecomp]
    _ = splitWSAux t [] := splitWSAux_dropWhile t

/-- C7: two query texts whose case-folded whitespace-separated word
sequences coincide (they differ only in letter case, leading/trailing
whitespace, or internal whitespace runs) produce the identical query
cache key for every result count `k`; in particular the four example
phrasings of the vocoder question all map to the same key. -/
theorem get_query_cache_key_normalizes :
    (∀ (q1 q2 : List Char) (k : Nat),
      pySplitWS (q1.map Char.toLower) = pySplitWS (q2.map Char.toLower) →
      get_query_cache_key q1 k = get_query_cache_key q2 k) ∧
    (∀ k : Nat,
      get_query_cache_key "How do I use the vocoder?".toList k =
        get_query_cache_key "  How do I use the vocoder?  ".toList k ∧
      get_query_cache_key "How do I use the vocoder?".toList k =
        get_query_cache_key "how do i use the vocoder?".toList k ∧
      get_query_cache_key "How do I use the vocoder?".toList k =
        get_query_cache_key "HOW DO I USE THE VOCODER?".toList k) := by
  have main : ∀ (q1 q2 : List Char) (k : Nat),
      pySplitWS (q1.map Char.toLower) = pySplitWS (q2.map Char.toLower) →
      get_query_cache_key q1 k = get_query_cache_key q2 k := by
    intro q1 q2 k h
    unfold get_query_cache_key queryCacheInput normalize_query
    rw [pySplitWS_pyStrip, pySplitWS_pyStrip, h]
  exact ⟨main, fun k =>
    ⟨main _ _ k (by decide), main _ _ k (by decide), main _ _ k (by decide)⟩⟩

theorem get_query_cache_key_normalizes_witness :
    pySplitWS ("  How do I use the vocoder?  ".toList.map Char.toLower) =
      pySplitWS ("HOW DO I USE THE VOCODER?".toList.map Char.toLower) ∧
    get_query_cache_key "  How do I use the vocoder?  ".toList 5 =
      get_query_cache_key "HOW DO I USE THE VOCODER?".toList 5 :=
  ⟨by decide, get_query_cache_key_normalizes.1 _ _ 5 (by decide)⟩

/-- C6: the confidence label satisfies the threshold ladder — above 0.8
"high", above 0.6 and at most 0.8 "medium", at most 0.6 "low" — and a
query with an empty retrieval result yields confidence "low" with
`total_sources = 0`. -/
theorem confidence_policy :
    (∀ s : ℚ, 8 / 10 < s → confidenceOf s = "high") ∧
    (∀ s : ℚ, 6 / 10 < s → s ≤ 8 / 10 → confidenceOf s = "medium") ∧
    (∀ s : ℚ, s ≤ 6 / 10 → confidenceOf s = "low") ∧
    (∀ (env : Env) (qcfg : QueryCfg) (st : SysState) (q : List Char) (k : Nat),
      List.lookup (get_query_cache_key q k) st.queryCache = none →
      find_similar_chunks env st q k = [] →
      (process_query env qcfg st q k).1.confidence = "low" ∧
        (process_query env qcfg st q k).1.totalSources = 0) := by
  refine ⟨?_, ?_, ?_, ?_⟩
  · intro s h
    simp [confidenceOf, h]
  · intro s h1 h2
    rw [confidenceOf, if_neg (by linarith), if_pos h1]
  · intro s h
    rw [confidenceOf, if_neg (by linarith), if_neg (by linarith)]
  · intro env qcfg st q k hmiss hempty
    simp [process_query, hmiss, hempty]

theorem confidence_policy_witness :
    confidenceOf (85 / 100) = "high" ∧
    confidenceOf (65 / 100) = "medium" ∧
    confidenceOf (3 / 10) = "low" ∧
    ((process_query testEnv defaultQueryCfg emptyState "hi".toList 5).1.confidence = "low" ∧
      (process_query testEnv defaultQueryCfg emptyState "hi".toList 5).1.totalSources = 0) :=
  ⟨confidence_policy.1 _ (by norm_num),
   confidence_policy.2.1 _ (by norm_num) (by norm_num),
   confidence_policy.2.2.1 _ (by norm_num),
   confidence_policy.2.2.2 testEnv defaultQueryCfg emptyState "hi".toList 5 rfl rfl⟩

/-- C8: on a cache miss, `process_query` stores the response under the
query cache key with TTL 3600 seconds (1 hour) exactly when the
retrieval result is empty (zero sources) and with the configured
`QUERY_CACHE_TTL` (default 86400 seconds = 24 hours) otherwise. -/
theorem process_query_ttl_policy (env : Env) (qcfg : QueryCfg) (st : SysState)
    (q : List Char) (k : Nat)
    (hmiss : List.lookup (get_query_cache_key q k) st.queryCache = none) :
    (process_query env qcfg st q k).2.queryCache =
      (get_query_cache_key q k,
        ((process_query env qcfg st q k).1,
          if find_similar_chunks env st q k = [] then 3600
          else qcfg.queryCacheTtl)) :: st.queryCache ∧
    ((process_query env qcfg st q k).1.totalSources = 0 ↔
      find_similar_chunks env st q k = []) ∧
    defaultQueryCfg.queryCacheTtl = 86400 := by
  refine ⟨?_, ?_, rfl⟩ <;> by_cases hempty : find_similar_chunks env st q k = []
  · simp [process_query, hmiss, hempty]
  · simp [process_query, hmiss, hempty]
  · simp [process_query, hmiss, hempty]
  · simp [process_query, hmiss, hempty, List.length_eq_zero]

theorem process_query_ttl_policy_witness :
    List.lookup (get_query_cache_key "hi".toList 5) emptyState.queryCache = none ∧
    ((process_query testEnv defaultQueryCfg emptyState "hi".toList 5).2.queryCache =
      (get_query_cache_key "hi".toList 5,
        ((process_query testEnv defaultQueryCfg emptyState "hi".toList 5).1,
          if find_similar_chunks testEnv emptyState "hi".toList 5 = [] then 3600
          else defaultQueryCfg.queryCacheTtl)) :: emptyState.queryCache ∧
    ((process_query testEnv defaultQueryCfg emptyState "hi".toList 5).1.totalSources = 0 ↔
      find_similar_chunks testEnv emptyState "hi".toList 5 = []) ∧
    defaultQueryCfg.queryCacheTtl = 86400) :=
  ⟨rfl, process_query_ttl_policy testEnv defaultQueryCfg emptyState "hi".toList 5 rfl⟩

/-- C9: when extraction yields empty (or whitespace-only) text for a
not-yet-cached file, `process_document` returns the typed
no-extractable-text error and leaves the state — in particular the
document store — unchanged. -/
theorem process_document_empty_extraction (env : Env) (cfg : ChunkCfg) (fuel : Nat)
    (st : SysState) (p : String)
    (hfresh : List.lookup ("doc:" ++ env.md5hex (env.fileBytes p)) st.docStore = none)
    (hempty : pyStrip (env.extractText p) = []) :
    process_document env cfg fuel st p =
      some (Except.error ("No text extracted from " ++ p), st) := by
  simp [process_document, hfresh, hempty]

theorem process_document_empty_extraction_witness :
    pyStrip (blankEnv.extractText "a.pdf") = [] ∧
    process_document blankEnv cfg1000 10 emptyState "a.pdf" =
      some (Except.error ("No text extracted from " ++ "a.pdf"), emptyState) :=
  ⟨by decide,
    process_document_empty_extraction blankEnv cfg1000 10 emptyState "a.pdf" rfl (by decide)⟩

/-- C4: processing byte-identical file content twice yields the same
content digest both times; the first call performs the single batch
embedding invocation and persists the record, and the second call
returns that stored record as a pure cache hit, leaving the state
untouched (the embedding function is invoked exactly once total). -/
theorem process_document_idempotent (env : Env) (cfg : ChunkCfg) (fuel : Nat)
    (st : SysState) (p1 p2 : String) (cs : List (List Char))
    (hbytes : env.fileBytes p1 = env.fileBytes p2)
    (hfresh : List.lookup ("doc:" ++ env.md5hex (env.fileBytes p1)) st.docStore = none)
    (htext : ¬ pyStrip (env.extractText p1) = [])
    (hchunk : chunk_text cfg fuel (env.extractText p1) = some cs) :
    env.md5hex (env.fileBytes p1) = env.md5hex (env.fileBytes p2) ∧
    ∃ (d : DocData) (st1 : SysState),
      process_document env cfg fuel st p1 = some (Except.ok d, st1) ∧
      process_document env cfg fuel st1 p2 = some (Except.ok d, st1) ∧
      d.fileHash = env.md5hex (env.fileBytes p1) ∧
      st1.docStore = ("doc:" ++ env.md5hex (env.fileBytes p1), d) :: st.docStore ∧
      st1.embedCalls = st.embedCalls + 1 := by
  refine ⟨by rw [hbytes],
    ⟨p1, pathName p1, env.md5hex (env.fileBytes p1), cs, cs.map env.embed, cs.length⟩,
    { st with
        docStore := ("doc:" ++ env.md5hex (env.fileBytes p1),
          ⟨p1, pathName p1, env.md5hex (env.fileBytes p1), cs,
            cs.map env.embed, cs.length⟩) :: st.docStore
        embedCalls := st.embedCalls + 1 },
    ?_, ?_, rfl, rfl, rfl⟩
  · simp [process_document, hfresh, htext, hchunk]
  · have h2 : env.md5hex (env.fileBytes p2) = env.md5hex (env.fileBytes p1) := by
      rw [hbytes]
    simp [process_document, h2, List.lookup]

theorem process_document_idempotent_witness :
    (¬ pyStrip (testEnv.extractText "a.pdf") = []) ∧
    chunk_text cfg1000 10 (testEnv.extractText "a.pdf") =
      some [testEnv.extractText "a.pdf"] ∧
    (testEnv.md5hex (testEnv.fileBytes "a.pdf") =
        testEnv.md5hex (testEnv.fileBytes "a.pdf") ∧
      ∃ (d : DocData) (st1 : SysState),
        process_document testEnv cfg1000 10 emptyState "a.pdf" =
          some (Except.ok d, st1) ∧
        process_document testEnv cfg1000 10 st1 "a.pdf" =
          some (Except.ok d, st1) ∧
        d.fileHash = testEnv.md5hex (testEnv.fileBytes "a.pdf") ∧
        st1.docStore = ("doc:" ++ testEnv.md5hex (testEnv.fileBytes "a.pdf"), d)
          :: emptyState.docStore ∧
        st1.embedCalls = emptyState.embedCalls + 1) :=
  ⟨by decide, by decide,
    process_document_idempotent testEnv cfg1000 10 emptyState "a.pdf" "a.pdf"
      [testEnv.extractText "a.pdf"] rfl rfl (by decide) (by decide)⟩

/-- C10: when the answer-generation call raises on a cache-miss query
with a non-empty retrieval result, `process_query` still returns a
complete response whose answer text is the apology message, stores it
under the normal cache key with the long TTL, and an immediately
repeated identical query is served from the cache — same response,
unchanged state, no second generation attempt. -/
theorem process_query_generation_failure_cached (env : Env) (qcfg : QueryCfg)
    (st : SysState) (q : List Char) (k : Nat) (e : List Char)
    (hmiss : List.lookup (get_query_cache_key q k) st.queryCache = none)
    (hne : ¬ find_similar_chunks env st q k = [])
    (hgen : env.generateAns q (find_similar_chunks env st q k) = Except.error e) :
    (process_query env qcfg st q k).1.response = apologyMsg e ∧
    (process_query env qcfg st q k).1.totalSources =
      (find_similar_chunks env st q k).length ∧
    (process_query env qcfg st q k).1.sources =
      (find_similar_chunks env st q k).map mkSource ∧
    (process_query env qcfg st q k).2.queryCache =
      (get_query_cache_key q k,
        ((process_query env qcfg st q k).1, qcfg.queryCacheTtl)) :: st.queryCache ∧
    (process_query env qcfg st q k).2.genCalls = st.genCalls + 1 ∧
    process_query env qcfg (process_query env qcfg st q k).2 q k =
      process_query env qcfg st q k := by
  have hrun :
      process_query env qcfg st q k =
        (⟨q, apologyMsg e, (find_similar_chunks env st q k).map mkSource,
          confidenceOf (maxSim (find_similar_chunks env st q k)),
          (find_similar_chunks env st q k).length⟩,
        { st with
            queryCache := (get_query_cache_key q k,
              (⟨q, apologyMsg e, (find_similar_chunks env st q k).map mkSource,
                confidenceOf (maxSim (find_similar_chunks env st q k)),
                (find_similar_chunks env st q k).length⟩, qcfg.queryCacheTtl))
              :: st.queryCache
            genCalls := st.genCalls + 1 }) := by
    simp [process_query, hmiss, hne, generate_response, hgen]
  rw [hrun]
  refine ⟨rfl, rfl, rfl, rfl, rfl, ?_⟩
  simp [process_query, List.lookup]

theorem process_query_generation_failure_cached_witness :
    List.lookup (get_query_cache_key "hi".toList 5) loadedState.queryCache = none ∧
    (¬ find_similar_chunks failEnv loadedState "hi".toList 5 = []) ∧
    failEnv.generateAns "hi".toList (find_similar_chunks failEnv loadedState "hi".toList 5) =
      Except.error "boom".toList ∧
    ((process_query failEnv defaultQueryCfg loadedState "hi".toList 5).1.response =
        apologyMsg "boom".toList ∧
      (process_query failEnv defaultQueryCfg loadedState "hi".toList 5).1.totalSources =
        (find_similar_chunks failEnv loadedState "hi".toList 5).length ∧
      (process_query failEnv defaultQueryCfg loadedState "hi".toList 5).1.sources =
        (find_similar_chunks failEnv loadedState "hi".toList 5).map mkSource ∧
      (process_query failEnv defaultQueryCfg loadedState "hi".toList 5).2.queryCache =
        (get_query_cache_key "hi".toList 5,
          ((process_query failEnv defaultQueryCfg loadedState "hi".toList 5).1,
            defaultQueryCfg.queryCacheTtl)) :: loadedState.queryCache ∧
      (process_query failEnv defaultQueryCfg loadedState "hi".toList 5).2.genCalls =
        loadedState.genCalls + 1 ∧
      process_query failEnv defaultQueryCfg
          (process_query failEnv defaultQueryCfg loadedState "hi".toList 5).2 "hi".toList 5 =
        process_query failEnv defaultQueryCfg loadedState "hi".toList 5) :=
  ⟨rfl, by decide, rfl,
    process_query_generation_failure_cached failEnv defaultQueryCfg loadedState
      "hi".toList 5 "boom".toList rfl (by decide) rfl⟩

end ManualMind
